import Mathlib

/-!
Verification of the ringrtc log-analysis tooling (`bin/parse_log.py`,
`bin/logs-notebook/call_log_parser.py`, `bin/logs-notebook/emos.py`)
against its natural-language specification.

Python floats are modelled as exact rationals (`ℚ`); Python exceptions
(`IndexError`, `ValueError`) are modelled as `Option`/`none` results;
Python strings are modelled as `List Char` (wrapped in `String` at the
API boundary).
-/

namespace RingRTC

/-! ## `emos.py` : the E-model MOS estimator

`compute_emos` is decomposed exactly along the source's four computation
steps (effective latency, base R-factor, loss adjustment, MOS polynomial)
so each step can be reasoned about separately; composing them is literally
the body of the Python function. -/

/-- `emos.py` line 14: `effectiveLatency: int = rtt + (jitter * 2) + 10`. -/
def effectiveLatency (rtt jitter : ℚ) : ℚ := rtt + jitter * 2 + 10

/-- `emos.py` lines 12, 16-20: `r0 = 94.768`; `rFactor = 0`;
`if effectiveLatency < 160: rFactor = r0 - (effectiveLatency / 40)`;
`elif effectiveLatency < 1000: rFactor = r0 - ((effectiveLatency - 120) / 10)`. -/
def rFactorBase (e : ℚ) : ℚ :=
  if e < 160 then 94.768 - e / 40
  else if e < 1000 then 94.768 - (e - 120) / 10
  else 0

/-- `emos.py` lines 23-26: `if fractionLost <= (rFactor / 2.5): rFactor =
max(rFactor - fractionLost * 2.5, 6.52) else: rFactor = 0`. -/
def rFactorAdj (r fractionLost : ℚ) : ℚ :=
  if fractionLost ≤ r / 2.5 then max (r - fractionLost * 2.5) 6.52 else 0

/-- `emos.py` line 29: `mos = 1 + (0.035 * rFactor) + (0.000007 * rFactor)
* (rFactor - 60) * (100 - rFactor)`. -/
def mosOf (r : ℚ) : ℚ := 1 + 0.035 * r + 0.000007 * r * (r - 60) * (100 - r)

/-- `emos.py` `compute_emos(rtt, jitter, fractionLost)`, the composition of
the four steps above in source order. -/
def compute_emos (rtt jitter fractionLost : ℚ) : ℚ :=
  mosOf (rFactorAdj (rFactorBase (effectiveLatency rtt jitter)) fractionLost)

/-- The E-model reference definition exactly as the specification words it
(spec §4.4): `effective_latency = rtt + 2*jitter + 10`; `r0 = 94.768`;
`if effective_latency < 160, r_factor = r0 - effective_latency/40; elif
< 1000, r_factor = r0 - (effective_latency-120)/10; else r_factor = 0`;
then `if fraction_lost <= r_factor/2.5, r_factor = max(r_factor -
fraction_lost*2.5, 6.52), else r_factor = 0`; finally `mos = 1 +
0.035*r_factor + 0.000007*r_factor*(r_factor-60)*(100-r_factor)`. -/
def emosSpec (rtt jitter fractionLost : ℚ) : ℚ :=
  let effective_latency := rtt + 2 * jitter + 10
  let r0 : ℚ := 94.768
  let r_factor :=
    if effective_latency < 160 then r0 - effective_latency / 40
    else if effective_latency < 1000 then r0 - (effective_latency - 120) / 10
    else 0
  let r_factor :=
    if fractionLost ≤ r_factor / 2.5 then max (r_factor - fractionLost * 2.5) 6.52
    else 0
  1 + 0.035 * r_factor + 0.000007 * r_factor * (r_factor - 60) * (100 - r_factor)

/-- With non-negative inputs, the adjusted R-factor is either exactly `0`
or lies in the interval `[6.52, 94.518]`. -/
lemma rFactorAdj_cases (rtt jitter fractionLost : ℚ)
    (hr : 0 ≤ rtt) (hj : 0 ≤ jitter) (hf : 0 ≤ fractionLost) :
    rFactorAdj (rFactorBase (effectiveLatency rtt jitter)) fractionLost = 0 ∨
      (6.52 ≤ rFactorAdj (rFactorBase (effectiveLatency rtt jitter)) fractionLost ∧
        rFactorAdj (rFactorBase (effectiveLatency rtt jitter)) fractionLost ≤ 94.518) := by
  have he : (10 : ℚ) ≤ effectiveLatency rtt jitter := by
    unfold effectiveLatency; linarith
  have hbase0 : 0 ≤ rFactorBase (effectiveLatency rtt jitter) := by
    unfold rFactorBase
    split_ifs with h1 h2 <;> linarith
  have hbase : rFactorBase (effectiveLatency rtt jitter) ≤ 94.518 := by
    unfold rFactorBase
    split_ifs with h1 h2 <;> linarith
  unfold rFactorAdj
  split_ifs with h
  · right
    constructor
    · exact le_max_right _ _
    · have : rFactorBase (effectiveLatency rtt jitter) - fractionLost * 2.5 ≤ 94.518 := by
        nlinarith
      have h652 : (6.52 : ℚ) ≤ 94.518 := by norm_num
      exact max_le this h652
  · left; rfl

/-- The MOS polynomial maps `0` to `1` and `[6.52, 94.518]` into `[1, 4.5)`. -/
lemma mosOf_bounds (r : ℚ) (h : r = 0 ∨ (6.52 ≤ r ∧ r ≤ 94.518)) :
    1 ≤ mosOf r ∧ mosOf r < 4.5 := by
  rcases h with h0 | ⟨hlo, hhi⟩
  · subst h0; unfold mosOf; norm_num
  · constructor
    · unfold mosOf
      nlinarith [mul_nonneg (by linarith : (0:ℚ) ≤ r - 6.52) (by linarith : (0:ℚ) ≤ 94.518 - r),
        mul_nonneg (mul_nonneg (by linarith : (0:ℚ) ≤ r - 6.52) (by linarith : (0:ℚ) ≤ 94.518 - r)) (by linarith : (0:ℚ) ≤ r)]
    · unfold mosOf
      nlinarith [mul_nonneg (by linarith : (0:ℚ) ≤ r) (by linarith : (0:ℚ) ≤ 94.518 - r),
        mul_nonneg (mul_nonneg (by linarith : (0:ℚ) ≤ r) (by linarith : (0:ℚ) ≤ 94.518 - r)) (by linarith : (0:ℚ) ≤ r),
        mul_nonneg (mul_nonneg (by linarith : (0:ℚ) ≤ r) (by linarith : (0:ℚ) ≤ 94.518 - r)) (by linarith : (0:ℚ) ≤ 94.518 - r)]

/-- **C2.** `compute_emos` agrees with the spec's E-model reference
definition on every input, and for all non-negative `rtt`, `jitter`,
`fractionLost` the result lies in `[1, 4.5)`. -/
theorem compute_emos_matches_spec_and_bounded :
    (∀ rtt jitter fractionLost : ℚ,
      compute_emos rtt jitter fractionLost = emosSpec rtt jitter fractionLost) ∧
    (∀ rtt jitter fractionLost : ℚ, 0 ≤ rtt → 0 ≤ jitter → 0 ≤ fractionLost →
      1 ≤ compute_emos rtt jitter fractionLost ∧
        compute_emos rtt jitter fractionLost < 4.5) := by
  constructor
  · intro rtt jitter fractionLost
    unfold compute_emos emosSpec mosOf rFactorAdj rFactorBase effectiveLatency
    have harg : rtt + jitter * 2 + 10 = rtt + 2 * jitter + 10 := by ring
    rw [harg]
  · intro rtt jitter fractionLost hr hj hf
    exact mosOf_bounds _ (rFactorAdj_cases rtt jitter fractionLost hr hj hf)

/-- Witness for C2: at `(rtt, jitter, fractionLost) = (20, 5, 2)` the
hypotheses hold and both conjuncts evaluate. -/
theorem compute_emos_matches_spec_and_bounded_witness :
    compute_emos 20 5 2 = emosSpec 20 5 2 ∧
      (1 ≤ compute_emos 20 5 2 ∧ compute_emos 20 5 2 < 4.5) :=
  ⟨compute_emos_matches_spec_and_bounded.1 20 5 2,
   compute_emos_matches_spec_and_bounded.2 20 5 2 (by norm_num) (by norm_num) (by norm_num)⟩

/-- **C8 counterexample.** At `(rtt, jitter, fractionLost) = (500, 100, 0.5)`
the loss clamp to `0` does *not* fire: the loss `0.5` does not exceed
`r_factor / 2.5 = 14.3072` (so the claim's stated mechanism is absent), the
adjusted R-factor is `34.518 ≠ 0`, and the score is `≈ 1.805`, well above
the floor `1` of the documented range. -/
theorem compute_emos_500_100_half_not_floor :
    (0.5 : ℚ) ≤ rFactorBase (effectiveLatency 500 100) / 2.5 ∧
      rFactorAdj (rFactorBase (effectiveLatency 500 100)) 0.5 = 34.518 ∧
      1.8 < compute_emos 500 100 0.5 := by
  refine ⟨by norm_num [rFactorBase, effectiveLatency], ?_, ?_⟩
  · norm_num [rFactorAdj, rFactorBase, effectiveLatency]
  · norm_num [compute_emos, mosOf, rFactorAdj, rFactorBase, effectiveLatency]

/-- **C8 (amended).** `compute_emos(0,0,0)` lies in `(4.4, 4.45)` (near the
top of the documented range), and `compute_emos(500,100,0.5)` lies in
`(1.80, 1.81)`: the loss clamp to `0` does not trigger there (since
`0.5 ≤ r_factor/2.5`); the reduction from the top of the range is due to
the latency penalty, not the loss clamp. -/
theorem compute_emos_boundary_inputs :
    (4.4 < compute_emos 0 0 0 ∧ compute_emos 0 0 0 < 4.45) ∧
      (1.80 < compute_emos 500 100 0.5 ∧ compute_emos 500 100 0.5 < 1.81) := by
  constructor
  · constructor <;> norm_num [compute_emos, mosOf, rFactorAdj, rFactorBase, effectiveLatency]
  · constructor <;> norm_num [compute_emos, mosOf, rFactorAdj, rFactorBase, effectiveLatency]

/-! ## Token-scanner model of the `call_log_parser.py` regexes

The timestamp / id regexes in `call_log_parser.py` are concatenations of
one-or-more character-class runs (`\d+`, `\w+`, `[0-9a-fA-F]+`) and literal
characters, where each repeated class is followed by a literal outside the
class (or by the end of the pattern).  For such patterns a greedy
maximal-munch scan is exactly Python's backtracking semantics: any
successful parse must extend each run to its maximal length, because every
character inside the run fails the following literal.  `re.findall`
returns non-overlapping matches leftmost-first and the source only
consumes element `[0]`, so each regex is modelled by the leftmost match of
a deterministic maximal-munch scanner. -/

/-- A token of a scanner pattern: a literal character, or a one-or-more
repetition of a character class (maximal munch). -/
inductive Tok where
  | lit (c : Char)
  | cls (p : Char → Bool)

/-- Python's `\w` (ASCII range; non-ASCII word characters do not occur in
the claims' inputs): letters, digits and underscore. -/
def isWordChar (c : Char) : Bool := c.isAlphanum || c = '_'

/-- Python's `[0-9a-fA-F]`. -/
def isHexChar (c : Char) : Bool :=
  c.isDigit || ('a' ≤ c && c ≤ 'f') || ('A' ≤ c && c ≤ 'F')

/-- Match a token list at the head of `s`; returns the matched characters
and the remainder.  Class runs are maximal munch (see section comment). -/
def tryMatch : List Tok → List Char → Option (List Char × List Char)
  | [], s => some ([], s)
  | Tok.lit _ :: _, [] => none
  | Tok.lit c :: ts, x :: xs =>
      if x = c then (tryMatch ts xs).map (fun p => (c :: p.1, p.2)) else none
  | Tok.cls p :: ts, s =>
      let run := s.takeWhile p
      let rest := s.dropWhile p
      if run.isEmpty then none
      else (tryMatch ts rest).map (fun q => (run ++ q.1, q.2))

/-- Leftmost match of a token pattern in `s` (the `[0]` element of
`re.findall`). -/
def findFirst (toks : List Tok) : List Char → Option (List Char)
  | [] =>
      match tryMatch toks [] with
      | some (m, _) => some m
      | none => none
  | x :: t =>
      match tryMatch toks (x :: t) with
      | some (m, _) => some m
      | none => findFirst toks t

/-- `r'\d+-\d+-\d+ \d+:\d+:\d+\.\d+ \w+'` (call_log_parser.py line 168),
the Android timestamp grammar, e.g. `2022-12-03 11:38:08.357 CST`. -/
def androidToks : List Tok :=
  [Tok.cls Char.isDigit, Tok.lit '-', Tok.cls Char.isDigit, Tok.lit '-',
   Tok.cls Char.isDigit, Tok.lit ' ', Tok.cls Char.isDigit, Tok.lit ':',
   Tok.cls Char.isDigit, Tok.lit ':', Tok.cls Char.isDigit, Tok.lit '.',
   Tok.cls Char.isDigit, Tok.lit ' ', Tok.cls isWordChar]

/-- `r'\d+-\d+-\d+T\d+:\d+:\d+\.\d+Z'` (call_log_parser.py line 173), the
desktop ISO-8601 grammar, e.g. `2022-11-28T00:41:41.299Z`. -/
def desktopToks : List Tok :=
  [Tok.cls Char.isDigit, Tok.lit '-', Tok.cls Char.isDigit, Tok.lit '-',
   Tok.cls Char.isDigit, Tok.lit 'T', Tok.cls Char.isDigit, Tok.lit ':',
   Tok.cls Char.isDigit, Tok.lit ':', Tok.cls Char.isDigit, Tok.lit '.',
   Tok.cls Char.isDigit, Tok.lit 'Z']

/-- `r'\d+/\d+/\d+ \d+:\d+:\d+\:\d+'` (call_log_parser.py line 178), the
iOS grammar, e.g. `2022/12/05 18:59:18:773`. -/
def iosToks : List Tok :=
  [Tok.cls Char.isDigit, Tok.lit '/', Tok.cls Char.isDigit, Tok.lit '/',
   Tok.cls Char.isDigit, Tok.lit ' ', Tok.cls Char.isDigit, Tok.lit ':',
   Tok.cls Char.isDigit, Tok.lit ':', Tok.cls Char.isDigit, Tok.lit ':',
   Tok.cls Char.isDigit]

/-- call_log_parser.py lines 166-182: `extract_timestamp` tries the
Android, desktop and iOS grammars in that order and returns the first
match's text; if none matches it returns the whole line unchanged. -/
def extract_timestamp (line : String) : String :=
  match findFirst androidToks line.toList with
  | some m => m.asString
  | none =>
    match findFirst desktopToks line.toList with
    | some m => m.asString
    | none =>
      match findFirst iosToks line.toList with
      | some m => m.asString
      | none => line

/-- `takeToLast c l` is the prefix of `l` up to and including the *last*
occurrence of `c` (`none` if `c` does not occur): the semantics of a
greedy `.*` followed by the literal `c` at the end of a pattern. -/
def takeToLast (c : Char) : List Char → Option (List Char)
  | [] => none
  | x :: t =>
      match takeToLast c t with
      | some m => some (x :: m)
      | none => if x = c then some [x] else none

/-- One attempt of `r'0[x][0-9a-fA-F]+|0[x]\[ REDACTED_HEX.*\]'`
(call_log_parser.py line 185) at the head of `s`, alternatives in source
order.  In the second alternative the greedy `.*\]` extends to the last
`]` of the remaining text (log lines contain no newline, so `.` never
stops early). -/
def callIdAt (s : List Char) : Option (List Char) :=
  match s with
  | '0' :: 'x' :: rest =>
      let run := rest.takeWhile isHexChar
      if !run.isEmpty then some ('0' :: 'x' :: run)
      else if ("[ REDACTED_HEX".toList).isPrefixOf rest then
        match takeToLast ']' rest with
        | some m => some ('0' :: 'x' :: m)
        | none => none
      else none
  | _ => none

/-- Leftmost match of the call-id alternation in `s`. -/
def findCallId : List Char → Option (List Char)
  | [] => none
  | x :: t => callIdAt (x :: t) <|> findCallId t

/-- call_log_parser.py lines 184-186: `extract_call_id`.  The source reads
`id[0] if isinstance(id[0], str) and len(id) > 0 else 'Unknown'`: Python
evaluates `id[0]` *before* the `len(id) > 0` guard, so an empty `findall`
result raises `IndexError` (modelled as `none`); a non-empty result yields
its first (leftmost) element. -/
def extract_call_id (line : String) : Option String :=
  match findCallId line.toList with
  | some m => some m.asString
  | none => none

/-! ### Generic facts about the scanner -/

/-- A token accepts a character. -/
def tokAccepts : Tok → Char → Bool
  | Tok.lit d, c => decide (c = d)
  | Tok.cls p, c => p c

lemma tryMatch_nil_eq (s : List Char) : tryMatch [] s = some ([], s) := rfl

lemma tryMatch_lit_cons (c : Char) (ts : List Tok) (x : Char) (xs : List Char) :
    tryMatch (Tok.lit c :: ts) (x :: xs) =
      if x = c then (tryMatch ts xs).map (fun p => (c :: p.1, p.2)) else none := rfl

lemma tryMatch_cls_eq (p : Char → Bool) (ts : List Tok) (s : List Char) :
    tryMatch (Tok.cls p :: ts) s =
      if (s.takeWhile p).isEmpty then none
      else (tryMatch ts (s.dropWhile p)).map (fun q => (s.takeWhile p ++ q.1, q.2)) := rfl

lemma tryMatch_cls_inv {p : Char → Bool} {ts : List Tok} {s m r : List Char}
    (h : tryMatch (Tok.cls p :: ts) s = some (m, r)) :
    s.takeWhile p ≠ [] ∧
      ∃ m', tryMatch ts (s.dropWhile p) = some (m', r) ∧ m = s.takeWhile p ++ m' := by
  rw [tryMatch_cls_eq] at h
  by_cases he : (s.takeWhile p).isEmpty
  · rw [if_pos he] at h; exact absurd h (by simp)
  · rw [if_neg he] at h
    refine ⟨by simpa [List.isEmpty_iff] using he, ?_⟩
    cases htm : tryMatch ts (s.dropWhile p) with
    | none => rw [htm] at h; exact absurd h (by simp)
    | some q =>
        rw [htm, Option.map_some'] at h
        obtain ⟨h1, h2⟩ := Prod.mk.injEq .. ▸ Option.some.injEq .. ▸ h
        exact ⟨q.1, by rw [← h2], h1.symm⟩

lemma tryMatch_lit_inv {c : Char} {ts : List Tok} {s m r : List Char}
    (h : tryMatch (Tok.lit c :: ts) s = some (m, r)) :
    ∃ xs m', s = c :: xs ∧ tryMatch ts xs = some (m', r) ∧ m = c :: m' := by
  cases s with
  | nil => exact absurd h (by simp [tryMatch])
  | cons x xs =>
      rw [tryMatch_lit_cons] at h
      by_cases hx : x = c
      · rw [if_pos hx] at h
        cases htm : tryMatch ts xs with
        | none => rw [htm] at h; exact absurd h (by simp)
        | some q =>
            rw [htm, Option.map_some'] at h
            obtain ⟨h1, h2⟩ := Prod.mk.injEq .. ▸ Option.some.injEq .. ▸ h
            exact ⟨xs, q.1, by rw [hx], by rw [htm, ← h2], h1.symm⟩
      · rw [if_neg hx] at h; exact absurd h (by simp)

lemma tryMatch_append {ts : List Tok} {s m r : List Char}
    (h : tryMatch ts s = some (m, r)) : m ++ r = s := by
  induction ts generalizing s m r with
  | nil =>
      rw [tryMatch_nil_eq] at h
      obtain ⟨h1, h2⟩ := Prod.mk.injEq .. ▸ Option.some.injEq .. ▸ h
      rw [← h1, ← h2]; rfl
  | cons t ts ih =>
      cases t with
      | lit c =>
          obtain ⟨xs, m', hs, hm', hmm⟩ := tryMatch_lit_inv h
          rw [hs, hmm, List.cons_append, ih hm']
      | cls p =>
          obtain ⟨-, m', hm', hmm⟩ := tryMatch_cls_inv h
          rw [hmm, List.append_assoc, ih hm', List.takeWhile_append_dropWhile]

lemma tryMatch_lit_mem {ts : List Tok} {s m r : List Char} {c : Char}
    (h : tryMatch ts s = some (m, r)) (hc : Tok.lit c ∈ ts) : c ∈ m := by
  induction ts generalizing s m r with
  | nil => simp at hc
  | cons t ts ih =>
      cases t with
      | lit d =>
          obtain ⟨xs, m', -, hm', hmm⟩ := tryMatch_lit_inv h
          rcases List.mem_cons.mp hc with hcd | hcd
          · cases hcd; rw [hmm]; exact List.mem_cons_self _ _
          · rw [hmm]; exact List.mem_cons_of_mem _ (ih hm' hcd)
      | cls p =>
          obtain ⟨-, m', hm', hmm⟩ := tryMatch_cls_inv h
          rcases List.mem_cons.mp hc with hcd | hcd
          · simp at hcd
          · rw [hmm]; exact List.mem_append_right _ (ih hm' hcd)

lemma tryMatch_mem_accepts {ts : List Tok} {s m r : List Char}
    (h : tryMatch ts s = some (m, r)) :
    ∀ c ∈ m, ∃ t ∈ ts, tokAccepts t c = true := by
  induction ts generalizing s m r with
  | nil =>
      rw [tryMatch_nil_eq] at h
      obtain ⟨h1, -⟩ := Prod.mk.injEq .. ▸ Option.some.injEq .. ▸ h
      intro c hc; rw [← h1] at hc; simp at hc
  | cons t ts ih =>
      cases t with
      | lit d =>
          obtain ⟨xs, m', -, hm', hmm⟩ := tryMatch_lit_inv h
          intro c hc
          rw [hmm] at hc
          rcases List.mem_cons.mp hc with hcd | hcd
          · exact ⟨Tok.lit d, List.mem_cons_self _ _, by simp [tokAccepts, hcd]⟩
          · obtain ⟨t', ht', ha⟩ := ih hm' c hcd
            exact ⟨t', List.mem_cons_of_mem _ ht', ha⟩
      | cls p =>
          obtain ⟨-, m', hm', hmm⟩ := tryMatch_cls_inv h
          intro c hc
          rw [hmm] at hc
          rcases List.mem_append.mp hc with hcd | hcd
          · exact ⟨Tok.cls p, List.mem_cons_self _ _,
              by simpa [tokAccepts] using List.mem_takeWhile_imp hcd⟩
          · obtain ⟨t', ht', ha⟩ := ih hm' c hcd
            exact ⟨t', List.mem_cons_of_mem _ ht', ha⟩

lemma tryMatch_eq_none_of_lit {ts : List Tok} {s : List Char} {c : Char}
    (hts : Tok.lit c ∈ ts) (hs : c ∉ s) : tryMatch ts s = none := by
  cases h : tryMatch ts s with
  | none => rfl
  | some p =>
      obtain ⟨m, r⟩ := p
      exact absurd (tryMatch_append h ▸ List.mem_append_left r (tryMatch_lit_mem h hts)) hs

lemma findFirst_cons (ts : List Tok) (x : Char) (t : List Char) :
    findFirst ts (x :: t) =
      match tryMatch ts (x :: t) with
      | some (m, _) => some m
      | none => findFirst ts t := rfl

lemma findFirst_eq_none_of_lit {ts : List Tok} {c : Char} (hts : Tok.lit c ∈ ts) :
    ∀ {s : List Char}, c ∉ s → findFirst ts s = none := by
  intro s
  induction s with
  | nil =>
      intro _
      show (match tryMatch ts [] with
            | some (m, _) => some m
            | none => none) = none
      rw [tryMatch_eq_none_of_lit hts (by simp)]
  | cons x t ih =>
      intro hc
      rw [findFirst_cons, tryMatch_eq_none_of_lit hts hc]
      exact ih (fun h => hc (List.mem_cons_of_mem _ h))

lemma takeWhile_run {p : Char → Bool} {run : List Char}
    (h : ∀ c ∈ run, p c = true) {x : Char} (hx : p x = false) (rest : List Char) :
    (run ++ x :: rest).takeWhile p = run ∧ (run ++ x :: rest).dropWhile p = x :: rest := by
  induction run with
  | nil => simp [List.takeWhile_cons, List.dropWhile_cons, hx]
  | cons y ys ih =>
      have hy : p y = true := h y (List.mem_cons_self _ _)
      have ihs := ih (fun c hc => h c (List.mem_cons_of_mem _ hc))
      simp [List.takeWhile_cons, List.dropWhile_cons, hy, ihs.1, ihs.2]

lemma tryMatch_cls_run {p : Char → Bool} {ts : List Tok} {run : List Char}
    (h : ∀ c ∈ run, p c = true) {x : Char} (hx : p x = false) (rest : List Char) :
    tryMatch (Tok.cls p :: ts) (run ++ x :: rest) =
      if run.isEmpty then none
      else (tryMatch ts (x :: rest)).map (fun q => (run ++ q.1, q.2)) := by
  rw [tryMatch_cls_eq, (takeWhile_run h hx rest).1, (takeWhile_run h hx rest).2]

/-! ### Mutual exclusion of the three timestamp grammars -/

lemma space_mem_androidToks : Tok.lit ' ' ∈ androidToks :=
  .tail _ (.tail _ (.tail _ (.tail _ (.tail _ (.head _)))))

lemma space_mem_iosToks : Tok.lit ' ' ∈ iosToks :=
  .tail _ (.tail _ (.tail _ (.tail _ (.tail _ (.head _)))))

lemma dash_mem_desktopToks : Tok.lit '-' ∈ desktopToks :=
  .tail _ (.head _)

/-- No desktop-grammar match starts inside the final digit run of an
Android date (`d3` all digits, followed by a space, `-`-free tail). -/
lemma ffDesktop_d3 (d3 rest0 : List Char) (h3 : ∀ c ∈ d3, Char.isDigit c = true)
    (hr : '-' ∉ rest0) : findFirst desktopToks (d3 ++ ' ' :: rest0) = none := by
  induction d3 with
  | nil =>
      rw [List.nil_append, findFirst_cons]
      have ht : tryMatch desktopToks (' ' :: rest0) = none := by
        unfold desktopToks
        rw [tryMatch_cls_eq]
        simp [List.takeWhile_cons, show Char.isDigit ' ' = false from by decide]
      rw [ht]
      exact findFirst_eq_none_of_lit dash_mem_desktopToks hr
  | cons c d3' ih =>
      have ht : tryMatch desktopToks (c :: (d3' ++ ' ' :: rest0)) = none := by
        rw [← List.cons_append]
        unfold desktopToks
        rw [tryMatch_cls_run h3 (by decide) rest0]
        simp [tryMatch_lit_cons]
      rw [List.cons_append, findFirst_cons, ht]
      exact ih (fun x hx => h3 x (List.mem_cons_of_mem _ hx))

/-- No desktop-grammar match starts inside the middle digit run of an
Android date. -/
lemma ffDesktop_d2 (d2 d3 rest0 : List Char)
    (h2 : ∀ c ∈ d2, Char.isDigit c = true) (h3 : ∀ c ∈ d3, Char.isDigit c = true)
    (hr : '-' ∉ rest0) :
    findFirst desktopToks (d2 ++ '-' :: (d3 ++ ' ' :: rest0)) = none := by
  induction d2 with
  | nil =>
      rw [List.nil_append, findFirst_cons]
      have ht : tryMatch desktopToks ('-' :: (d3 ++ ' ' :: rest0)) = none := by
        unfold desktopToks
        rw [tryMatch_cls_eq]
        simp [List.takeWhile_cons, show Char.isDigit '-' = false from by decide]
      rw [ht]
      exact ffDesktop_d3 d3 rest0 h3 hr
  | cons c d2' ih =>
      have ht : tryMatch desktopToks (c :: (d2' ++ '-' :: (d3 ++ ' ' :: rest0))) = none := by
        rw [← List.cons_append]
        unfold desktopToks
        rw [tryMatch_cls_run h2 (by decide) _]
        rw [tryMatch_lit_cons]
        rw [tryMatch_cls_run h3 (by decide) rest0]
        simp [tryMatch_lit_cons]
      rw [List.cons_append, findFirst_cons, ht]
      exact ih (fun x hx => h2 x (List.mem_cons_of_mem _ hx))

/-- No desktop-grammar match starts anywhere in an Android-format
timestamp `d1-d2-d3 rest0` whose tail `rest0` contains no `-`. -/
lemma ffDesktop_d1 (d1 d2 d3 rest0 : List Char)
    (h1 : ∀ c ∈ d1, Char.isDigit c = true) (h2 : ∀ c ∈ d2, Char.isDigit c = true)
    (h3 : ∀ c ∈ d3, Char.isDigit c = true) (hr : '-' ∉ rest0) :
    findFirst desktopToks (d1 ++ '-' :: (d2 ++ '-' :: (d3 ++ ' ' :: rest0))) = none := by
  induction d1 with
  | nil =>
      rw [List.nil_append, findFirst_cons]
      have ht : tryMatch desktopToks ('-' :: (d2 ++ '-' :: (d3 ++ ' ' :: rest0))) = none := by
        unfold desktopToks
        rw [tryMatch_cls_eq]
        simp [List.takeWhile_cons, show Char.isDigit '-' = false from by decide]
      rw [ht]
      exact ffDesktop_d2 d2 d3 rest0 h2 h3 hr
  | cons c d1' ih =>
      have ht : tryMatch desktopToks
          (c :: (d1' ++ '-' :: (d2 ++ '-' :: (d3 ++ ' ' :: rest0)))) = none := by
        rw [← List.cons_append]
        unfold desktopToks
        rw [tryMatch_cls_run h1 (by decide) _]
        rw [tryMatch_lit_cons]
        rw [tryMatch_cls_run h2 (by decide) _]
        rw [tryMatch_lit_cons]
        rw [tryMatch_cls_run h3 (by decide) rest0]
        simp [tryMatch_lit_cons]
      rw [List.cons_append, findFirst_cons, ht]
      exact ih (fun x hx => h1 x (List.mem_cons_of_mem _ hx))

/-- A string that *is* an Android-grammar timestamp (the grammar matches it
in full) contains no desktop-grammar match anywhere. -/
lemma android_no_desktop {s : List Char}
    (h : tryMatch androidToks s = some (s, [])) :
    findFirst desktopToks s = none := by
  unfold androidToks at h
  obtain ⟨hd1, m1, h1, -⟩ := tryMatch_cls_inv h
  obtain ⟨xs1, m2, hxs1, h2, -⟩ := tryMatch_lit_inv h1
  obtain ⟨hd2, m3, h3, -⟩ := tryMatch_cls_inv h2
  obtain ⟨xs2, m4, hxs2, h4, -⟩ := tryMatch_lit_inv h3
  obtain ⟨hd3, m5, h5, -⟩ := tryMatch_cls_inv h4
  obtain ⟨xs3, m6, hxs3, h6, -⟩ := tryMatch_lit_inv h5
  have hm6 : m6 = xs3 := by
    have := tryMatch_append h6; simpa using this
  have hnoDash : '-' ∉ xs3 := by
    intro hmem
    obtain ⟨t, ht, hacc⟩ := tryMatch_mem_accepts h6 '-' (hm6 ▸ hmem)
    fin_cases ht <;> exact absurd hacc (by decide)
  have hs : s = s.takeWhile Char.isDigit ++ '-' ::
      (xs1.takeWhile Char.isDigit ++ '-' :: (xs2.takeWhile Char.isDigit ++ ' ' :: xs3)) := by
    conv_lhs => rw [← List.takeWhile_append_dropWhile (p := Char.isDigit) (l := s)]
    rw [hxs1]
    congr 1
    congr 1
    conv_lhs => rw [← List.takeWhile_append_dropWhile (p := Char.isDigit) (l := xs1)]
    rw [hxs2]
    congr 1
    congr 1
    conv_lhs => rw [← List.takeWhile_append_dropWhile (p := Char.isDigit) (l := xs2)]
    rw [hxs3]
  rw [hs]
  exact ffDesktop_d1 _ _ _ _
    (fun c hc => List.mem_takeWhile_imp hc)
    (fun c hc => List.mem_takeWhile_imp hc)
    (fun c hc => List.mem_takeWhile_imp hc) hnoDash

/-- A string that *is* a desktop-grammar timestamp contains no space, hence
no Android-grammar and no iOS-grammar match anywhere. -/
lemma desktop_no_android_no_ios {s : List Char}
    (h : tryMatch desktopToks s = some (s, [])) :
    findFirst androidToks s = none ∧ findFirst iosToks s = none := by
  have hnoSpace : ' ' ∉ s := by
    intro hmem
    obtain ⟨t, ht, hacc⟩ := tryMatch_mem_accepts h ' ' hmem
    unfold desktopToks at ht
    fin_cases ht <;> exact absurd hacc (by decide)
  exact ⟨findFirst_eq_none_of_lit space_mem_androidToks hnoSpace,
    findFirst_eq_none_of_lit space_mem_iosToks hnoSpace⟩

/-- **C6.** `extract_timestamp` tries the Android, desktop and iOS grammars
in that fixed priority order — it returns the Android match when one
exists, otherwise the desktop match, otherwise the iOS match — and returns
the original line unmodified when no grammar matches.  The grammars are
mutually exclusive in both claimed directions: a desktop ISO timestamp
contains no Android-grammar (and no iOS-grammar) match anywhere, and an
Android timestamp contains no desktop-grammar match anywhere.  Illustrated
on one literal log line per grammar and one unparsable line. -/
theorem extract_timestamp_priority_and_disjoint :
    (∀ line : String, ∀ m,
        findFirst androidToks line.toList = some m → extract_timestamp line = m.asString) ∧
    (∀ line : String,
        findFirst androidToks line.toList = none →
        findFirst desktopToks line.toList = none →
        findFirst iosToks line.toList = none →
        extract_timestamp line = line) ∧
    (∀ s : List Char, tryMatch desktopToks s = some (s, []) →
        findFirst androidToks s = none ∧ findFirst iosToks s = none) ∧
    (∀ s : List Char, tryMatch androidToks s = some (s, []) →
        findFirst desktopToks s = none) ∧
    extract_timestamp "INFO 2022-12-03 11:38:08.357 CST on_start_call" =
      "2022-12-03 11:38:08.357 CST" ∧
    extract_timestamp "INFO  2022-11-28T00:41:41.299Z ringrtc!" =
      "2022-11-28T00:41:41.299Z" ∧
    extract_timestamp "x 2022/12/05 18:59:18:773 ios log" = "2022/12/05 18:59:18:773" ∧
    extract_timestamp "no timestamp in this line" = "no timestamp in this line" := by
  refine ⟨?_, ?_, fun s h => desktop_no_android_no_ios h,
    fun s h => android_no_desktop h, by decide, by decide, by decide, by decide⟩
  · intro line m h
    unfold extract_timestamp
    rw [h]
  · intro line h1 h2 h3
    unfold extract_timestamp
    rw [h1, h2, h3]

/-- Witness for C6: the literal desktop timestamp is matched in full by the
desktop grammar and yields no Android and no iOS match; the literal Android
timestamp is matched in full by the Android grammar and yields no desktop
match. -/
theorem extract_timestamp_priority_and_disjoint_witness :
    (findFirst androidToks ("2022-11-28T00:41:41.299Z".toList) = none ∧
      findFirst iosToks ("2022-11-28T00:41:41.299Z".toList) = none) ∧
    findFirst desktopToks ("2022-12-03 11:38:08.357 CST".toList) = none :=
  ⟨extract_timestamp_priority_and_disjoint.2.2.1 _ (by decide),
   extract_timestamp_priority_and_disjoint.2.2.2.1 _ (by decide)⟩

/-! ## The `_parse_calls` session reconstructor (call_log_parser.py 148-246) -/

/-- call_log_parser.py line 23: `GROUP_CALL_TYPE = 'Group'`. -/
def GROUP_CALL_TYPE : String := "Group"

/-- Python's `pat in line` substring test. -/
def containsSub (pat line : String) : Bool := decide (pat.toList <:+: line.toList)

/-- The dict returned by `new_raw_call` (call_log_parser.py lines 149-164).
`end_` stands for the source's `end` key (a Lean keyword). -/
structure RawCall where
  connection : List String
  ice_network_route_change : List String
  audio_send : List String
  audio_recv : List String
  video_send : List String
  video_recv : List String
  sfu_recv : List String
  media_key_recv : List String
  logs : List String
  start : String
  end_ : String
  type : String
  id : String
deriving DecidableEq

/-- call_log_parser.py lines 149-164: `new_raw_call()`. -/
def new_raw_call : RawCall :=
  { connection := [], ice_network_route_change := [], audio_send := [],
    audio_recv := [], video_send := [], video_recv := [], sfu_recv := [],
    media_key_recv := [], logs := [], start := "", end_ := "",
    type := "Unknown", id := "Unknown" }

/-- One attempt of `r'direction: (\w+)'` (call_log_parser.py line 207) at
the head of `s`: the literal, then a maximal non-empty `\w+` run. -/
def directionAt (s : List Char) : Option (List Char) :=
  if ("direction: ".toList).isPrefixOf s then
    let run := (s.drop 11).takeWhile isWordChar
    if run.isEmpty then none else some run
  else none

/-- Leftmost match of `r'direction: (\w+)'` in `s` (`findall` element 0). -/
def findDirection : List Char → Option (List Char)
  | [] => none
  | x :: t => directionAt (x :: t) <|> findDirection t

/-- The loop state of `_parse_calls`: the emitted `raw_calls` list and the
open `raw_call` (`none` models the cleared/empty dict, which is falsy). -/
structure ParseState where
  raw_calls : List RawCall
  raw_call : Option RawCall
deriving DecidableEq

/-- `if raw_call: raw_calls.append(raw_call)` — flush the open call. -/
def emitOpen (st : ParseState) : List RawCall :=
  match st.raw_call with
  | some rc => st.raw_calls ++ [rc]
  | none => st.raw_calls

/-- call_log_parser.py lines 224-243: the accumulation arms of the `elif`
chain (network-route lines, the six stats categories, the two media-key
lines, and the final `elif raw_call: raw_call['logs'].append(line)`),
in source order, acting on the open record.  These arms never fire a
side effect when no call is open (`append` checks `if raw_call:`), so in
`parseStep` they are applied under `Option.map`. -/
def bucketLine (line : String) (rc : RawCall) : RawCall :=
  if containsSub "ice_network_route_change" line then
    { rc with ice_network_route_change := rc.ice_network_route_change ++ [line] }
  else if containsSub "ringrtc_stats!,connection," line then
    { rc with connection := rc.connection ++ [line] }
  else if containsSub "ringrtc_stats!,audio,send" line then
    { rc with audio_send := rc.audio_send ++ [line] }
  else if containsSub "ringrtc_stats!,audio,recv" line then
    { rc with audio_recv := rc.audio_recv ++ [line] }
  else if containsSub "ringrtc_stats!,video,send" line then
    { rc with video_send := rc.video_send ++ [line] }
  else if containsSub "ringrtc_stats!,video,recv" line then
    { rc with video_recv := rc.video_recv ++ [line] }
  else if containsSub "ringrtc_stats!,sfu,recv" line then
    { rc with sfu_recv := rc.sfu_recv ++ [line] }
  else if containsSub "handle_incoming_video_track(): id" line then
    { rc with media_key_recv := rc.media_key_recv ++ [line] }
  else if containsSub "Adding media receive key from" line then
    { rc with media_key_recv := rc.media_key_recv ++ [line] }
  else
    { rc with logs := rc.logs ++ [line] }

/-- One iteration of the `for line in logs` loop of `_parse_calls`
(call_log_parser.py lines 195-243), an `elif` chain in source order: the
two start-marker branches, the termination branch, then the accumulation
arms (`bucketLine`).  `none` models the uncaught `IndexError` raised by
`extract_call_id` on a start line carrying no id (the whole parse dies, so
the intermediate mutations before the raise are unobservable). -/
def parseStep (st : ParseState) (line : String) : Option ParseState :=
  if containsSub "on_start_call" line then
    match extract_call_id line with
    | none => none
    | some cid =>
        some { raw_calls := emitOpen st,
               raw_call := some { new_raw_call with
                 start := extract_timestamp line,
                 id := cid,
                 type := match findDirection line.toList with
                   | some w => w.asString
                   | none => new_raw_call.type } }
  else if containsSub "Group Client created with id" line then
    some { raw_calls := emitOpen st,
           raw_call := some { new_raw_call with
             start := extract_timestamp line, type := GROUP_CALL_TYPE } }
  else if (containsSub "terminate_call" line ||
      containsSub "delete_group_call_client" line) && st.raw_call.isSome then
    match st.raw_call with
    | some rc =>
        some { raw_calls := st.raw_calls ++ [{ rc with end_ := extract_timestamp line }],
               raw_call := none }
    | none => some st
  else
    some { st with raw_call := st.raw_call.map (bucketLine line) }

/-- The whole `for line in logs` loop. -/
def parseCallsLoop : ParseState → List String → Option ParseState
  | st, [] => some st
  | st, l :: ls =>
      match parseStep st l with
      | some st' => parseCallsLoop st' ls
      | none => none

/-- call_log_parser.py lines 188-246: the reconstruction phase of
`_parse_calls`, from the raw line list to the emitted `raw_calls` records
(including the final `if raw_call: raw_calls.append(raw_call)` flush).
The subsequent `create_call` conversion copies `id`/`start`/`end`/`type`
into the `Call` unchanged and turns the per-category line buckets into
DataFrames (the numeric-column cleaning of that phase is modelled by
`clean_numeric_column` below). -/
def parseCalls (logs : List String) : Option (List RawCall) :=
  match parseCallsLoop { raw_calls := [], raw_call := none } logs with
  | some st => some (emitOpen st)
  | none => none

/-- Start markers: the first two branches of the `elif` chain. -/
def isStartMarker (line : String) : Bool :=
  containsSub "on_start_call" line || containsSub "Group Client created with id" line

/-- Termination markers (the third branch). -/
def isTermMarker (line : String) : Bool :=
  containsSub "terminate_call" line || containsSub "delete_group_call_client" line

/-- The session-level fields of a record: `(start, end, type, id)`. -/
def sessionFields (rc : RawCall) : String × String × String × String :=
  (rc.start, rc.end_, rc.type, rc.id)

/-- The accumulation arms only touch line buckets, never the
session-level fields. -/
lemma sessionFields_bucketLine (line : String) (rc : RawCall) :
    sessionFields (bucketLine line rc) = sessionFields rc := by
  unfold bucketLine
  split_ifs <;> rfl

/-- A non-marker line never raises, never emits, and leaves the open
call's session-level fields untouched (it only appends to line buckets). -/
lemma parseStep_mid (st : ParseState) (line : String)
    (hs : isStartMarker line = false) (ht : isTermMarker line = false) :
    ∃ st', parseStep st line = some st' ∧ st'.raw_calls = st.raw_calls ∧
      st'.raw_call.map sessionFields = st.raw_call.map sessionFields := by
  have h1 : containsSub "on_start_call" line = false :=
    (Bool.or_eq_false_iff.mp hs).1
  have h2 : containsSub "Group Client created with id" line = false :=
    (Bool.or_eq_false_iff.mp hs).2
  have h3 : containsSub "terminate_call" line = false :=
    (Bool.or_eq_false_iff.mp ht).1
  have h4 : containsSub "delete_group_call_client" line = false :=
    (Bool.or_eq_false_iff.mp ht).2
  refine ⟨{ st with raw_call := st.raw_call.map (bucketLine line) }, ?_, rfl, ?_⟩
  · unfold parseStep
    simp only [h1, h2, h3, h4, Bool.false_or, Bool.false_and, Bool.false_eq_true,
      if_false]
  · cases st.raw_call <;> simp [sessionFields_bucketLine]

/-- A start-marker line (with an extractable id in the 1:1 case) emits any
open call unchanged and opens a fresh record whose `start` is the line's
timestamp and whose `end` is empty. -/
lemma parseStep_start (st : ParseState) (line : String)
    (hs : isStartMarker line = true)
    (hid : containsSub "on_start_call" line = true → (extract_call_id line).isSome = true) :
    ∃ rc, parseStep st line = some { raw_calls := emitOpen st, raw_call := some rc } ∧
      rc.start = extract_timestamp line ∧ rc.end_ = "" := by
  unfold parseStep
  by_cases h1 : containsSub "on_start_call" line = true
  · obtain ⟨cid, hcid⟩ := Option.isSome_iff_exists.mp (hid h1)
    rw [if_pos h1, hcid]
    exact ⟨_, rfl, rfl, rfl⟩
  · have h1' : containsSub "on_start_call" line = false := by
      simpa using h1
    have h2 : containsSub "Group Client created with id" line = true := by
      unfold isStartMarker at hs
      simpa [h1'] using hs
    rw [if_neg h1, if_pos h2]
    exact ⟨_, rfl, rfl, rfl⟩

lemma parseCallsLoop_cons (st : ParseState) (l : String) (ls : List String) :
    parseCallsLoop st (l :: ls) =
      match parseStep st l with
      | some st' => parseCallsLoop st' ls
      | none => none := rfl

lemma parseCallsLoop_append (st : ParseState) (a b : List String) :
    parseCallsLoop st (a ++ b) =
      match parseCallsLoop st a with
      | some st' => parseCallsLoop st' b
      | none => none := by
  induction a generalizing st with
  | nil => rfl
  | cons l ls ih =>
      rw [List.cons_append, parseCallsLoop_cons, parseCallsLoop_cons]
      cases parseStep st l with
      | none => rfl
      | some st' => exact ih st'

/-- Folding a run of non-marker lines never raises, emits nothing and
preserves the open call's session-level fields. -/
lemma parseCallsLoop_mid (mid : List String) :
    ∀ st : ParseState, (∀ l ∈ mid, isStartMarker l = false ∧ isTermMarker l = false) →
    ∃ st', parseCallsLoop st mid = some st' ∧ st'.raw_calls = st.raw_calls ∧
      st'.raw_call.map sessionFields = st.raw_call.map sessionFields := by
  induction mid with
  | nil => exact fun st _ => ⟨st, rfl, rfl, rfl⟩
  | cons l ls ih =>
      intro st hmid
      obtain ⟨st1, hst1, hrc1, hsf1⟩ :=
        parseStep_mid st l (hmid l (List.mem_cons_self _ _)).1
          (hmid l (List.mem_cons_self _ _)).2
      obtain ⟨st2, hst2, hrc2, hsf2⟩ :=
        ih st1 (fun x hx => hmid x (List.mem_cons_of_mem _ hx))
      refine ⟨st2, ?_, hrc2.trans hrc1, hsf2.trans hsf1⟩
      rw [parseCallsLoop_cons, hst1]
      exact hst2

/-- **C1.** For a stream `l1 :: mid ++ [l2]` whose first and last lines are
start markers (1:1 `on_start_call` with an extractable id, or group-client
created) and whose middle lines contain no start and no termination
marker, the reconstructor emits exactly two sessions in order: the first is
finalized with an *empty* end timestamp (no error is raised), and the
second session's start is taken from the second start line. -/
theorem parseCalls_two_starts (l1 l2 : String) (mid : List String)
    (h1 : isStartMarker l1 = true) (h2 : isStartMarker l2 = true)
    (hid1 : containsSub "on_start_call" l1 = true → (extract_call_id l1).isSome = true)
    (hid2 : containsSub "on_start_call" l2 = true → (extract_call_id l2).isSome = true)
    (hmid : ∀ l ∈ mid, isStartMarker l = false ∧ isTermMarker l = false) :
    ∃ c1 c2, parseCalls (l1 :: (mid ++ [l2])) = some [c1, c2] ∧
      c1.start = extract_timestamp l1 ∧ c1.end_ = "" ∧
      c2.start = extract_timestamp l2 ∧ c2.end_ = "" := by
  obtain ⟨rc1, hstep1, hs1, he1⟩ := parseStep_start ⟨[], none⟩ l1 h1 hid1
  obtain ⟨stm, hloopm, hrcm, hsfm⟩ := parseCallsLoop_mid mid ⟨[], some rc1⟩ hmid
  obtain ⟨rc2, hstep2, hs2, he2⟩ := parseStep_start stm l2 h2 hid2
  have hrcm2 : ∃ rcm, stm.raw_call = some rcm ∧ sessionFields rcm = sessionFields rc1 := by
    cases hc : stm.raw_call with
    | none => rw [hc] at hsfm; simp at hsfm
    | some rcm =>
        rw [hc] at hsfm
        exact ⟨rcm, rfl, by simpa using hsfm⟩
  obtain ⟨rcm, hopen, hsf⟩ := hrcm2
  have hfields : rcm.start = rc1.start ∧ rcm.end_ = rc1.end_ := by
    unfold sessionFields at hsf
    exact ⟨congrArg (fun p => p.1) hsf, congrArg (fun p => p.2.1) hsf⟩
  have hemit : emitOpen stm = [rcm] := by
    unfold emitOpen
    rw [hopen, hrcm]
    rfl
  refine ⟨rcm, rc2, ?_, hfields.1.trans hs1, hfields.2.trans he1, hs2, he2⟩
  have hloopAll : parseCallsLoop ⟨[], none⟩ (l1 :: (mid ++ [l2])) =
      some ⟨[rcm], some rc2⟩ := by
    rw [parseCallsLoop_cons, hstep1]
    show parseCallsLoop ⟨[], some rc1⟩ (mid ++ [l2]) = some ⟨[rcm], some rc2⟩
    rw [parseCallsLoop_append, hloopm]
    show parseCallsLoop stm [l2] = some ⟨[rcm], some rc2⟩
    rw [parseCallsLoop_cons, hstep2]
    show some (⟨emitOpen stm, some rc2⟩ : ParseState) = some ⟨[rcm], some rc2⟩
    rw [hemit]
  unfold parseCalls
  rw [hloopAll]
  rfl

/-- Witness for C1: two concrete start lines (a 1:1 start with a hex id and
a group-client-created line) separated by one ordinary log line. -/
theorem parseCalls_two_starts_witness :
    ∃ c1 c2, parseCalls
        ["2022-12-03 11:38:08.357 CST on_start_call 0xdeadbeef direction: Outgoing"
          , "hello world"
          , "2022-12-03 11:39:00.000 CST Group Client created with id 42"] = some [c1, c2] ∧
      c1.start = extract_timestamp
        "2022-12-03 11:38:08.357 CST on_start_call 0xdeadbeef direction: Outgoing" ∧
      c1.end_ = "" ∧
      c2.start = extract_timestamp
        "2022-12-03 11:39:00.000 CST Group Client created with id 42" ∧
      c2.end_ = "" :=
  parseCalls_two_starts _ _ ["hello world"] (by decide) (by decide)
    (fun _ => by decide) (fun h => by simpa using h)
    (by intro l hl; rw [List.mem_singleton] at hl; subst hl; exact ⟨by decide, by decide⟩)

/-- **C10.** A termination marker (`terminate_call` or
`delete_group_call_client`) on a line that is not also a start marker,
observed while no session is open, leaves the state (both the emitted list
and the open-call slot) unchanged and raises nothing: the line is silently
ignored by the fold. -/
theorem parseStep_terminate_idle (st : ParseState) (line : String) (ls : List String)
    (hterm : isTermMarker line = true) (hs : isStartMarker line = false)
    (hidle : st.raw_call = none) :
    parseStep st line = some st ∧ parseCallsLoop st (line :: ls) = parseCallsLoop st ls := by
  have h1 : containsSub "on_start_call" line = false :=
    (Bool.or_eq_false_iff.mp hs).1
  have h2 : containsSub "Group Client created with id" line = false :=
    (Bool.or_eq_false_iff.mp hs).2
  have hstep : parseStep st line = some st := by
    obtain ⟨rcs, orc⟩ := st
    cases orc with
    | some rc => simp at hidle
    | none =>
        unfold parseStep
        simp only [h1, h2, Bool.false_eq_true, if_false, Option.isSome_none,
          Bool.and_false, Option.map_none']
  exact ⟨hstep, by rw [parseCallsLoop_cons, hstep]⟩

/-- Witness for C10: a concrete stray `terminate_call` line at the very
start of a log is ignored. -/
theorem parseStep_terminate_idle_witness :
    parseStep ⟨[], none⟩ "2022-12-03 11:40:00.000 CST terminate_call" = some ⟨[], none⟩ ∧
      parseCallsLoop ⟨[], none⟩ ["2022-12-03 11:40:00.000 CST terminate_call"] =
        parseCallsLoop ⟨[], none⟩ [] :=
  parseStep_terminate_idle ⟨[], none⟩ _ [] (by decide) (by decide) rfl

/-- **C4 (code bug).** `extract_call_id` on a start-marker line carrying no
plain-hex and no redacted-hex token: `re.findall` returns the empty list
and the source expression `id[0] if isinstance(id[0], str) and len(id) > 0
else 'Unknown'` evaluates `id[0]` first, raising `IndexError` instead of
producing the documented `"Unknown"` fallback; the exception propagates and
kills the whole parse (`parseCalls` = `none`), so the session *is* dropped
and an error *is* raised, contradicting the claim. -/
theorem extract_call_id_raises_without_id :
    findCallId ("2022-12-03 11:38:08.357 CST on_start_call direction: Outgoing".toList) = none ∧
    extract_call_id "2022-12-03 11:38:08.357 CST on_start_call direction: Outgoing" = none ∧
    parseCalls ["2022-12-03 11:38:08.357 CST on_start_call direction: Outgoing"] = none := by
  refine ⟨by decide, by decide, by decide⟩

/-! ## `clean_columns` numeric-column cleaning (call_log_parser.py 347-364) -/

/-- Python `str.rstrip(chars)`: remove trailing characters that belong to
the character *set* `chars` (not the literal suffix). -/
def rstrip (chars s : String) : String :=
  ((s.toList.reverse.dropWhile (fun c => chars.toList.contains c)).reverse).asString

/-- `pd.to_numeric` on one text cell, for the integer-formed cells these
columns hold: an optional minus sign followed by one or more digits;
anything else raises `ValueError` (`none`).  (pandas also accepts float
forms; the stats cells and the claim's inputs are integral.) -/
def toNumericCell (s : String) : Option ℤ :=
  let digitsVal : List Char → ℤ :=
    fun l => l.foldl (fun acc c => acc * 10 + (c.toNat - '0'.toNat : ℤ)) 0
  match s.toList with
  | [] => none
  | '-' :: rest =>
      if !rest.isEmpty && rest.all Char.isDigit then some (-(digitsVal rest)) else none
  | l =>
      if l.all Char.isDigit then some (digitsVal l) else none

/-- `pd.to_numeric(column.transform(lambda s: s.rstrip(suffix)))`: strip
the suffix character set from every cell and convert; `ValueError` on any
cell fails the whole conversion. -/
def toNumericColumn (suffix : String) (cells : List String) : Option (List ℤ) :=
  cells.mapM (fun s => toNumericCell (rstrip suffix s))

/-- call_log_parser.py lines 348-364: the per-column `while True` cleaning
loop, for a column held as text (`object` dtype).  Each pass attempts the
strip-and-convert; on `ValueError` the source executes
`df = df.iloc[1:, :]` — dropping the *first remaining row* of the frame —
and retries; on success it stores the numeric column and stops.  The loop
always terminates because each failing pass shortens the frame by one row
and the empty column converts successfully. -/
def clean_numeric_column : List String → String → List ℤ
  | [], suffix =>
      match toNumericColumn suffix [] with
      | some vals => vals
      | none => []
  | c :: rest, suffix =>
      match toNumericColumn suffix (c :: rest) with
      | some vals => vals
      | none => clean_numeric_column rest suffix

lemma clean_numeric_column_cons (c : String) (rest : List String) (suffix : String) :
    clean_numeric_column (c :: rest) suffix =
      match toNumericColumn suffix (c :: rest) with
      | some vals => vals
      | none => clean_numeric_column rest suffix := rfl

/-- **C3 counterexample.** For the claim's own example column
`["100bps", "bitrate", "200bps"]`, the cleaning loop drops the *first* row
on each failed parse, so both `"100bps"` and `"bitrate"` are discarded:
the cleaned column is `[200]` — one row, not the claimed `[100, 200]` —
and the retry is not bounded to a single attempt. -/
theorem clean_numeric_column_example_not_two_rows :
    clean_numeric_column ["100bps", "bitrate", "200bps"] "bps" = [200] ∧
      clean_numeric_column ["100bps", "bitrate", "200bps"] "bps" ≠ [100, 200] := by
  refine ⟨by decide, by decide⟩

/-- **C3 (amended).** The cleaning loop never raises and repeatedly drops
the topmost remaining row after each failed strip-and-reparse until the
remaining rows all parse: the result is the longest suffix of the column
that converts (every longer suffix fails).  On the example
`["100bps", "bitrate", "200bps"]` this keeps only `[200]`. -/
theorem clean_numeric_column_drops_from_top :
    (∀ (cells : List String) (suffix : String),
      ∃ k, k ≤ cells.length ∧
        toNumericColumn suffix (cells.drop k) = some (clean_numeric_column cells suffix) ∧
        ∀ j, j < k → toNumericColumn suffix (cells.drop j) = none) ∧
    clean_numeric_column ["100bps", "bitrate", "200bps"] "bps" = [200] := by
  constructor
  · intro cells suffix
    induction cells with
    | nil => exact ⟨0, Nat.le_refl _, rfl, fun j hj => absurd hj (Nat.not_lt_zero _)⟩
    | cons c rest ih =>
        cases hconv : toNumericColumn suffix (c :: rest) with
        | some vals =>
            refine ⟨0, Nat.zero_le _, ?_, fun j hj => absurd hj (Nat.not_lt_zero _)⟩
            rw [List.drop_zero, hconv, clean_numeric_column_cons, hconv]
        | none =>
            obtain ⟨k, hk, hsome, hnone⟩ := ih
            refine ⟨k + 1, Nat.succ_le_succ hk, ?_, ?_⟩
            · rw [List.drop_succ_cons, hsome, clean_numeric_column_cons, hconv]
            · intro j hj
              cases j with
              | zero => simpa using hconv
              | succ j' =>
                  rw [List.drop_succ_cons]
                  exact hnone j' (Nat.lt_of_succ_lt_succ hj)
  · decide

/-! ## `_match_call_ids` cross-source correlation (call_log_parser.py 417-446) -/

/-- call_log_parser.py lines 422-432: `stable_id`.  Python slicing:
`id[-5:-2]` (the three characters starting five from the end) for the
redacted-hex form — whose prefix guarantees length ≥ 16, so the slice is
exactly three characters — and `id[-3:]` (the last three characters, or
the whole string when shorter) otherwise. -/
def stable_id (id : String) : String :=
  if ("0x[ REDACTED_HEX".toList) <+: id.toList then
    ((id.toList.drop (id.toList.length - 5)).take 3).asString
  else
    (id.toList.drop (id.toList.length - 3)).asString

/-- call_log_parser.py lines 434-435: `contains_id`. -/
def contains_id (id : String) (calls : List RawCall) : Bool :=
  calls.any (fun call => stable_id call.id == id)

/-- call_log_parser.py lines 437-438: `matches_all` (over `results[1:]`). -/
def matches_all (id : String) (results : List (List RawCall)) : Bool :=
  results.all (fun calls => contains_id id calls)

/-- call_log_parser.py lines 417-446: `_match_call_ids`.  The source
mutates `results` in place and returns it; modelled as returning the new
lists.  `results[0]` on an empty input raises `IndexError` (`none`);
`load_calls` only reaches this with at least two lists.  Correlation reads
only each call's `id`, which `create_call` copies verbatim from the raw
record, so it is modelled over the raw records. -/
def match_call_ids : List (List RawCall) → Option (List (List RawCall))
  | [] => none
  | r0 :: rest =>
      let ids := r0.map (fun call => stable_id call.id)
      let matching_ids := ids.filter (fun id => matches_all id rest)
      some ((r0 :: rest).map (fun calls =>
        calls.filter (fun call => decide (stable_id call.id ∈ matching_ids))))

lemma zip_map_self {α β : Type} (f : α → β) :
    ∀ l : List α, List.zip l (l.map f) = l.map (fun a => (a, f a))
  | [] => rfl
  | x :: xs => by
      rw [List.map_cons, List.zip_cons_cons, zip_map_self f xs, List.map_cons]

/-- An id appears in `matching_ids` exactly when it occurs in every source
list: in the first list via the comprehension over `results[0]`, in the
others via `matches_all`. -/
lemma matching_ids_iff (r0 : List RawCall) (rest : List (List RawCall)) (sid : String) :
    sid ∈ (r0.map (fun call => stable_id call.id)).filter
        (fun id => matches_all id rest) ↔
      ∀ calls ∈ (r0 :: rest), contains_id sid calls = true := by
  simp only [List.mem_filter, List.mem_map, matches_all, List.all_eq_true,
    List.forall_mem_cons, contains_id, List.any_eq_true, beq_iff_eq]

/-- **C5.** For `N ≥ 2` per-source session lists, correlation keeps a
session in a list exactly when its stable id occurs in *every* one of the
`N` lists: the output has one (filtered) list per input list, membership in
each output list is membership in the corresponding input list plus
occurrence of the stable id in all input lists, and if any source list is
empty every returned list is empty. -/
theorem match_call_ids_intersection (results out : List (List RawCall))
    (hlen : 2 ≤ results.length)
    (hout : match_call_ids results = some out) :
    out.length = results.length ∧
    (∀ p ∈ List.zip results out, ∀ c, c ∈ p.2 ↔
      (c ∈ p.1 ∧ ∀ calls ∈ results, contains_id (stable_id c.id) calls = true)) ∧
    ((∃ calls ∈ results, calls = []) → ∀ l ∈ out, l = []) := by
  match results, hout with
  | r0 :: rest, hout =>
      have hout' : out = (r0 :: rest).map (fun calls =>
          calls.filter (fun call => decide (stable_id call.id ∈
            (r0.map (fun call => stable_id call.id)).filter
              (fun id => matches_all id rest)))) := by
        have := hout
        unfold match_call_ids at this
        exact (Option.some.injEq .. ▸ this).symm
      subst hout'
      refine ⟨by rw [List.length_map], ?_, ?_⟩
      · intro p hp c
        rw [zip_map_self] at hp
        obtain ⟨a, ha, hpa⟩ := List.mem_map.mp hp
        subst hpa
        simp only [List.mem_filter, decide_eq_true_eq]
        exact and_congr_right
          (fun _ => (List.mem_filter).symm.trans (matching_ids_iff r0 rest (stable_id c.id)))
      · rintro ⟨calls0, hc0, rfl⟩ l hl
        obtain ⟨a, ha, hfa⟩ := List.mem_map.mp hl
        subst hfa
        rw [List.filter_eq_nil_iff]
        intro c hc hpred
        rw [decide_eq_true_eq, matching_ids_iff] at hpred
        have := hpred [] hc0
        simp [contains_id] at this

/-- The three-source example from the spec: exactly one stable id (`111`)
is shared by all three lists — one participant uses the redacted-hex form. -/
def corrExampleResults : List (List RawCall) :=
  [[{ new_raw_call with id := "0xaaa111" }, { new_raw_call with id := "0xbbb222" }],
   [{ new_raw_call with id := "0xccc111" }, { new_raw_call with id := "0xddd333" }],
   [{ new_raw_call with id := "0x[ REDACTED_HEX:...111 ]" }]]

/-- The correlated output: exactly one session per list, all with stable
id `111`. -/
def corrExampleOut : List (List RawCall) :=
  [[{ new_raw_call with id := "0xaaa111" }],
   [{ new_raw_call with id := "0xccc111" }],
   [{ new_raw_call with id := "0x[ REDACTED_HEX:...111 ]" }]]

/-- Witness for C5: on the three-source example the correlation returns
exactly one session per list (all sharing the stable id `111`), and the
intersection characterization applies. -/
theorem match_call_ids_intersection_witness :
    match_call_ids corrExampleResults = some corrExampleOut ∧
    (corrExampleOut.length = corrExampleResults.length ∧
      (∀ p ∈ List.zip corrExampleResults corrExampleOut, ∀ c, c ∈ p.2 ↔
        (c ∈ p.1 ∧ ∀ calls ∈ corrExampleResults,
          contains_id (stable_id c.id) calls = true)) ∧
      ((∃ calls ∈ corrExampleResults, calls = []) →
        ∀ l ∈ corrExampleOut, l = [])) :=
  ⟨by decide,
   match_call_ids_intersection corrExampleResults corrExampleOut (by decide) (by decide)⟩

/-! ## `bin/parse_log.py`: the event extractor

Every recognizer is `TIMESTAMP_PATTERN_STR = ".*(\d\d:\d\d:\d\d.\d+).*"`
followed by a pattern-specific tail built from literals, greedy `.*`, lazy
`.*?`, and digit/letter runs.  Python's backtracking priorities are
modelled by deterministic combinators: a greedy `.*` tries the rightmost
viable position first (`tryFromRight`), a lazy `.*?` the leftmost
(`takeToFirst` / `eachAfterComma`), and class runs are maximal munch
(justified per use: the character after the run can never start the
following literal, and every continuation behind the timestamp's `\d+`
begins with `.*`, whose absorption makes acceptance independent of run
backtracking).  Log lines contain no newline, so `.` never stops early. -/

/-- parse_log.py lines 27-34. -/
structure Instant where
  secs : ℚ
deriving DecidableEq

/-- parse_log.py lines 41-44. -/
inductive NetworkAdapterType where
  | UNKNOWN
  | WIFI
  | CELL
deriving DecidableEq

/-- parse_log.py lines 46-52: `parse_network_adapter_type_name`. -/
def parse_network_adapter_type_name (unparsed : String) : NetworkAdapterType :=
  if unparsed = "Wifi" then NetworkAdapterType.WIFI
  else if unparsed = "Cellular" then NetworkAdapterType.CELL
  else NetworkAdapterType.UNKNOWN

/-- parse_log.py lines 67-68. -/
structure DataRate where
  bps : ℤ
deriving DecidableEq

/-- Python `float(text)` for the plain decimal forms these logs carry
(`[-]digits`, `[-]digits.digits`, `[-]digits.`, `[-].digits`); other
accepted forms (exponents, `inf`, `nan`, surrounding whitespace) never
occur in the matched fields.  Unparseable text raises `ValueError`
(`none`). -/
def parseFloatQ : List Char → Option ℚ :=
  let digitsVal : List Char → ℚ :=
    fun l => l.foldl (fun acc c => acc * 10 + ((c.toNat - '0'.toNat : ℕ) : ℚ)) 0
  let nonneg : List Char → Option ℚ := fun s =>
    let intPart := s.takeWhile Char.isDigit
    let rest := s.dropWhile Char.isDigit
    match rest with
    | [] => if intPart.isEmpty then none else some (digitsVal intPart)
    | '.' :: frac =>
        if frac.all Char.isDigit && !(intPart.isEmpty && frac.isEmpty) then
          some (digitsVal intPart + digitsVal frac / (10 : ℚ) ^ frac.length)
        else none
    | _ => none
  fun s =>
    match s with
    | '-' :: rest => (nonneg rest).map (fun q => -q)
    | _ => nonneg s

/-- Python `str.split(sep)` for a single-character separator. -/
def splitOnChar (c : Char) : List Char → List (List Char)
  | [] => [[]]
  | x :: t =>
      match splitOnChar c t with
      | [] => [[x]]
      | h :: t' => if x = c then [] :: h :: t' else (x :: h) :: t'

/-- parse_log.py lines 36-39: `parse_timestamp`.  `(hours, mins, secs) =
(float(x) for x in unparsed.split(":")[:3])`; unpacking fewer than three
parts, or a non-float part, raises `ValueError` (`none`). -/
def parse_timestamp (unparsed : String) : Option Instant :=
  match (splitOnChar ':' unparsed.toList).take 3 with
  | [h, m, s] => do
      let hv ← parseFloatQ h
      let mv ← parseFloatQ m
      let sv ← parseFloatQ s
      some ⟨(60 * hv + mv) * 60 + sv⟩
  | _ => none

/-- Greedy `.*` before a subpattern: the subpattern is attempted at the
rightmost (shortest-suffix) position first. -/
def tryFromRight {α : Type} (f : List Char → Option α) : List Char → Option α
  | [] => f []
  | x :: t => tryFromRight f t <|> f (x :: t)

/-- Strip a literal prefix, or fail. -/
def dropLit (lit s : List Char) : Option (List Char) :=
  if lit.isPrefixOf s then some (s.drop lit.length) else none

/-- Lazy `(.*?)` up to the *first* occurrence of a literal delimiter:
returns the (shortest) capture and the text after the delimiter. -/
def takeToFirst (delim : List Char) : List Char → Option (List Char × List Char)
  | [] => if delim.isEmpty then some ([], []) else none
  | x :: t =>
      if delim.isPrefixOf (x :: t) then some ([], (x :: t).drop delim.length)
      else (takeToFirst delim t).map (fun p => (x :: p.1, p.2))

/-- Greedy `(.*)` up to the *last* occurrence of a literal character:
returns the (longest) capture, without the character. -/
def takeToLastBefore (c : Char) : List Char → Option (List Char)
  | [] => none
  | x :: t =>
      match takeToLastBefore c t with
      | some m => some (x :: m)
      | none => if x = c then some [] else none

/-- Lazy `.*?,`: try each comma from left to right, handing the text after
it to the continuation; later commas are tried when the continuation
fails (regex backtracking order). -/
def eachAfterComma {α : Type} (f : List Char → Option α) : List Char → Option α
  | [] => none
  | x :: t => (if x = ',' then f t else none) <|> eachAfterComma f t

/-- The group `(\d\d:\d\d:\d\d.\d+)` of `TIMESTAMP_PATTERN_STR`
(parse_log.py line 79) at the head of `s`: two digits, `:`, two digits,
`:`, two digits, one arbitrary character (the `.` is unescaped in the
source pattern), then a maximal non-empty digit run.  Returns the matched
text and the remainder. -/
def tsGroupAt (s : List Char) : Option (List Char × List Char) :=
  match s with
  | d1 :: d2 :: ':' :: d3 :: d4 :: ':' :: d5 :: d6 :: dot :: rest =>
      if d1.isDigit && d2.isDigit && d3.isDigit && d4.isDigit &&
          d5.isDigit && d6.isDigit then
        let run := rest.takeWhile Char.isDigit
        if run.isEmpty then none
        else some ([d1, d2, ':', d3, d4, ':', d5, d6, dot] ++ run,
          rest.dropWhile Char.isDigit)
      else none
  | _ => none

/-- `.*(\d\d:\d\d:\d\d.\d+).*` followed by a recognizer-specific tail:
the greedy leading `.*` makes the rightmost position at which both the
timestamp group and the tail succeed win; the captured timestamp is then
fed to `parse_timestamp` (whose `ValueError` on an unparseable capture
kills the program in Python — modelled as no event). -/
def tsThen {α : Type} (tail : List Char → Option α) (line : String) :
    Option (Instant × α) :=
  match tryFromRight (fun s => do
      let p ← tsGroupAt s
      let a ← tail p.2
      some (p.1, a)) line.toList with
  | none => none
  | some (ts, a) =>
      match parse_timestamp ts.asString with
      | some t => some (t, a)
      | none => none

/-- A tail of the form `.*anchor.*`: matches exactly when `anchor` occurs
in the remaining text. -/
def anchorTail (anchor : String) (s : List Char) : Option Unit :=
  if anchor.toList <:+: s then some () else none

/-- parse_log.py line 345: the `Event` union of the fifteen NamedTuples,
with each NamedTuple's fields. -/
inductive Event where
  | outgoingCall (time : Instant)
  | incomingCall (time : Instant)
  | callStart (time : Instant) (call_id : String)
  | callState (time : Instant) (state : String)
  | connection (time : Instant) (remote_device_id : String)
  | localIceCandidate (time : Instant) (type : String)
  | remoteIceCandidate (time : Instant) (type : String)
  | iceConnected (time : Instant)
  | networkRouteChange (time : Instant) (adapter_type : NetworkAdapterType)
  | sendRateChange (time : Instant) (send_rate : DataRate)
  | audioReceiveStats (time : Instant) (ssrc : ℤ) (packets_received : ℤ)
      (packets_lost : ℤ) (bytes_received : ℤ) (jitter : ℚ) (frames_decoded : ℤ)
      (total_decode_time : ℚ) (audio_level : ℚ) (total_audio_energy : String)
  | videoReceiveStats (time : Instant) (ssrc : ℤ) (packets_received : ℤ)
      (packets_lost : ℤ) (packets_repaired : ℤ) (bytes_received : ℤ)
      (frames_decoded : ℤ) (key_frames_decoded : ℤ) (total_decode_time : ℚ)
      (frame_width : ℤ) (frame_height : ℤ)
  | localHangup (time : Instant)
  | receivedHangup (time : Instant) (remote_device_id : String) (type : String)
  | callEnded (time : Instant)
deriving DecidableEq

/-- Python `int(text)` on a captured group (sign and digits; other
accepted forms never occur in these fields); a non-integral capture
raises `ValueError` (`none`), which kills the program in Python —
modelled as no event. -/
def toIntPy (l : List Char) : Option ℤ := toNumericCell l.asString

/-- parse_log.py lines 81-93: `OUTGOING_CALL_PATTERN` / `parse_outgoing_call`. -/
def parse_outgoing_call (line : String) : Option Event :=
  (tsThen (anchorTail "API:create_outgoing_call") line).map
    (fun p => Event.outgoingCall p.1)

/-- parse_log.py lines 95-107: `parse_incoming_call`. -/
def parse_incoming_call (line : String) : Option Event :=
  (tsThen (anchorTail "API:received_offer") line).map
    (fun p => Event.incomingCall p.1)

/-- Tail of `CALL_START_PATTERN` (line 109):
`app -> cm: proceed.*REDACTED_HEX:...(.*?) ]` — the literal, a greedy gap,
the literal `REDACTED_HEX:`, three arbitrary characters, then a lazy
capture closed by the first ` ]` (nothing follows it in the pattern, so
the lazy group never extends). -/
def callStartTail (s : List Char) : Option String :=
  tryFromRight (fun u => do
    let u1 ← dropLit "app -> cm: proceed".toList u
    tryFromRight (fun v => do
      let v1 ← dropLit "REDACTED_HEX:".toList v
      match v1 with
      | _ :: _ :: _ :: w => (takeToFirst " ]".toList w).map (fun p => p.1.asString)
      | _ => none) u1) s

/-- parse_log.py lines 115-122: `parse_call_start`. -/
def parse_call_start (line : String) : Option Event :=
  (tsThen callStartTail line).map (fun p => Event.callStart p.1 p.2)

/-- Tail of `CALL_STATE_PATTERN` (line 124):
`on_connection_observer_event.*StateChanged[(](.*)[)].*` — the greedy
group captures up to the *last* `)`. -/
def callStateTail (s : List Char) : Option String :=
  tryFromRight (fun u => do
    let u1 ← dropLit "on_connection_observer_event".toList u
    tryFromRight (fun v => do
      let v1 ← dropLit "StateChanged(".toList v
      (takeToLastBefore ')' v1).map List.asString) u1) s

/-- parse_log.py lines 130-137: `parse_call_state`. -/
def parse_call_state (line : String) : Option Event :=
  (tsThen callStateTail line).map (fun p => Event.callState p.1 p.2)

/-- Tail of `CONNECTION_PATTERN` (line 140):
`create_connection.*remote_device_id: (\d+).*`. -/
def connectionTail (s : List Char) : Option String :=
  tryFromRight (fun u => do
    let u1 ← dropLit "create_connection".toList u
    tryFromRight (fun v => do
      let v1 ← dropLit "remote_device_id: ".toList v
      let run := v1.takeWhile Char.isDigit
      if run.isEmpty then none else some run.asString) u1) s

/-- parse_log.py lines 146-153: `parse_connection`. -/
def parse_connection (line : String) : Option Event :=
  (tsThen connectionTail line).map (fun p => Event.connection p.1 p.2)

/-- Tail of the ICE-candidate patterns (lines 156, 171):
`<anchor>.*typ ([a-z]+).*`. -/
def iceCandidateTail (anchor : String) (s : List Char) : Option String :=
  tryFromRight (fun u => do
    let u1 ← dropLit anchor.toList u
    tryFromRight (fun v => do
      let v1 ← dropLit "typ ".toList v
      let run := v1.takeWhile (fun c => 'a' ≤ c && c ≤ 'z')
      if run.isEmpty then none else some run.asString) u1) s

/-- parse_log.py lines 162-169: `parse_local_ice_candidate`. -/
def parse_local_ice_candidate (line : String) : Option Event :=
  (tsThen (iceCandidateTail "Local ICE candidate:") line).map
    (fun p => Event.localIceCandidate p.1 p.2)

/-- parse_log.py lines 177-184: `parse_remote_ice_candidate`. -/
def parse_remote_ice_candidate (line : String) : Option Event :=
  (tsThen (iceCandidateTail "Remote ICE candidate:") line).map
    (fun p => Event.remoteIceCandidate p.1 p.2)

/-- parse_log.py lines 191-198: `parse_ice_connected`
(`ICE_CONNECTED_PATTERN`, line 186: `IceConnected.*`). -/
def parse_ice_connected (line : String) : Option Event :=
  (tsThen (anchorTail "IceConnected") line).map (fun p => Event.iceConnected p.1)

/-- Tail of `NETWORK_ROUTE_CHANGE_PATTERN` (line 200):
`rtc -> conn: ice_network_route_change\(NetworkRoute { local_adapter_type: ([A-Za-z]+).*`. -/
def networkRouteTail (s : List Char) : Option String :=
  tryFromRight (fun u => do
    let u1 ← dropLit
      "rtc -> conn: ice_network_route_change(NetworkRoute \x7b local_adapter_type: ".toList u
    let run := u1.takeWhile (fun c => c.isAlpha)
    if run.isEmpty then none else some run.asString) s

/-- parse_log.py lines 206-214: `parse_network_route_change`. -/
def parse_network_route_change (line : String) : Option Event :=
  (tsThen networkRouteTail line).map
    (fun p => Event.networkRouteChange p.1 (parse_network_adapter_type_name p.2))

/-- Tail of `SEND_RATE_CHANGE_PATTERN` (line 216):
`ringrtc_stats!,connection,.*?,.*?,(\d+).*` — two lazy comma-bounded gaps
(earliest commas first, later ones on continuation failure), then a
maximal digit run. -/
def sendRateTail (s : List Char) : Option String :=
  tryFromRight (fun u => do
    let u1 ← dropLit "ringrtc_stats!,connection,".toList u
    eachAfterComma (fun v1 =>
      eachAfterComma (fun v2 =>
        let run := v2.takeWhile Char.isDigit
        if run.isEmpty then none else some run.asString) v1) u1) s

/-- parse_log.py lines 222-230: `parse_send_rate_change`; `parse_bps`
(lines 76-77) is `DataRate(int(text))` on the digit capture. -/
def parse_send_rate_change (line : String) : Option Event :=
  match tsThen sendRateTail line with
  | none => none
  | some (t, bpsStr) =>
      match toIntPy bpsStr.toList with
      | some bps => some (Event.sendRateChange t ⟨bps⟩)
      | none => none

/-- The seven comma-terminated lazy captures of the audio pattern
(the groups `packets_received_str` ... `audio_level_str`). -/
structure AudioFields where
  a1 : List Char
  a2 : List Char
  a3 : List Char
  a4 : List Char
  a5 : List Char
  a6 : List Char
  a7 : List Char
deriving DecidableEq

/-- Tail of `AUDIO_RECEIVE_STATS_PATTERN` (line 232):
`ringrtc_stats!,audio,recv,` then the lazy SSRC `(\d+?),` — which
accepts exactly a non-empty digit run followed by a comma — then eight
lazy `(.*?)` groups: the first seven are each closed by a comma (split at
the first seven commas, faithful because the remaining pattern imposes no
further requirement) and the eighth sits at the very end of the pattern,
so it captures the empty string and the rest of the line is left
unconsumed. -/
def audioStatsTail (s : List Char) : Option (List Char × AudioFields) :=
  tryFromRight (fun u => do
    let u1 ← dropLit "ringrtc_stats!,audio,recv,".toList u
    let run := u1.takeWhile Char.isDigit
    if run.isEmpty then none
    else
      match u1.dropWhile Char.isDigit with
      | ',' :: u2 => do
          let (a1, u3) ← takeToFirst [','] u2
          let (a2, u4) ← takeToFirst [','] u3
          let (a3, u5) ← takeToFirst [','] u4
          let (a4, u6) ← takeToFirst [','] u5
          let (a5, u7) ← takeToFirst [','] u6
          let (a6, u8) ← takeToFirst [','] u7
          let (a7, _) ← takeToFirst [','] u8
          some (run, ⟨a1, a2, a3, a4, a5, a6, a7⟩)
      | _ => none) s

/-- The eight comma-terminated lazy captures of the video pattern
(the groups `packets_received_str` ... `frame_width_str`). -/
structure VideoFields where
  f1 : List Char
  f2 : List Char
  f3 : List Char
  f4 : List Char
  f5 : List Char
  f6 : List Char
  f7 : List Char
  f8 : List Char
deriving DecidableEq

/-- Tail of `VIDEO_RECEIVE_STATS_PATTERN` (line 264):
`ringrtc_stats!,video,recv,` then the lazy SSRC `(\d+?),` — which
accepts exactly a non-empty digit run followed by a comma — then eight
comma-closed lazy `(.*?)` groups, split at the first eight commas
(faithful: the rest of the pattern imposes no further requirement), and a
final greedy `(.*)` capturing the remainder of the line. -/
def videoStatsTail (s : List Char) :
    Option (List Char × VideoFields × List Char) :=
  tryFromRight (fun u => do
    let u1 ← dropLit "ringrtc_stats!,video,recv,".toList u
    let run := u1.takeWhile Char.isDigit
    if run.isEmpty then none
    else
      match u1.dropWhile Char.isDigit with
      | ',' :: u2 => do
          let (f1, u3) ← takeToFirst [','] u2
          let (f2, u4) ← takeToFirst [','] u3
          let (f3, u5) ← takeToFirst [','] u4
          let (f4, u6) ← takeToFirst [','] u5
          let (f5, u7) ← takeToFirst [','] u6
          let (f6, u8) ← takeToFirst [','] u7
          let (f7, u9) ← takeToFirst [','] u8
          let (f8, u10) ← takeToFirst [','] u9
          some (run, ⟨f1, f2, f3, f4, f5, f6, f7, f8⟩, u10)
      | _ => none) s

/-- parse_log.py lines 246-262: `parse_audio_receive_stats`.  The group
names are `a1` = packets_received_str, `a2` = packets_lost_str,
`a3` = bytes_received_str, `a4` = jitter_str, `a5` = frames_decoded_str,
`a6` = total_decode_time_str, `a7` = audio_level_str; the final group
`total_audio_energy_str` always captures the empty string (see
`audioStatsTail`), and `total_audio_energy` is kept as `str`. -/
def parse_audio_receive_stats (line : String) : Option Event :=
  match tsThen audioStatsTail line with
  | none => none
  | some (t, ssrcStr, fields) => do
      let ssrc ← toIntPy ssrcStr
      let pr ← toIntPy fields.a1
      let pl ← toIntPy fields.a2
      let br ← toIntPy fields.a3
      let j ← parseFloatQ fields.a4
      let fd ← toIntPy fields.a5
      let tdt ← parseFloatQ fields.a6
      let al ← parseFloatQ fields.a7
      some (Event.audioReceiveStats t ssrc pr pl br j fd tdt al "")

/-- parse_log.py lines 279-296: `parse_video_receive_stats`.  The group
names are `f1` = packets_received_str, `f2` = packets_lost_str,
`f3` = packets_repaired_str, `f4` = bytes_received_str,
`f5` = frames_decoded_str, `f6` = key_frames_decoded_str,
`f7` = total_decode_time_str, `f8` = frame_width_str, final remainder =
frame_height_str.  Source line 290 converts *both* `frames_decoded` and
`key_frames_decoded` from `frames_decoded_str` (`f5`) — the captured
key-frames group `f6` is never used. -/
def parse_video_receive_stats (line : String) : Option Event :=
  match tsThen videoStatsTail line with
  | none => none
  | some (t, ssrcStr, fields, fhStr) => do
      let ssrc ← toIntPy ssrcStr
      let pr ← toIntPy fields.f1
      let pl ← toIntPy fields.f2
      let prp ← toIntPy fields.f3
      let br ← toIntPy fields.f4
      let fd ← toIntPy fields.f5
      let kfd ← toIntPy fields.f5
      let tdt ← parseFloatQ fields.f7
      let fw ← toIntPy fields.f8
      let fh ← toIntPy fhStr
      some (Event.videoReceiveStats t ssrc pr pl prp br fd kfd tdt fw fh)

/-- parse_log.py lines 304-311: `parse_local_hangup`
(`LOCAL_HANGUP_PATTERN`, line 299: `app -> cm: hangup.*`). -/
def parse_local_hangup (line : String) : Option Event :=
  (tsThen (anchorTail "app -> cm: hangup") line).map (fun p => Event.localHangup p.1)

/-- Tail of `RECEIVED_HANGUP_PATTERN` (line 314):
`ReceivedHangup, device: (.*?) hangup: (.*?)[)]` — two lazy captures; the
first closes at the first ` hangup: ` (if no `)` follows it, none follows
any later occurrence either, so no backtracking is needed), the second at
the first `)`. -/
def receivedHangupTail (s : List Char) : Option (String × String) :=
  tryFromRight (fun u => do
    let u1 ← dropLit "ReceivedHangup, device: ".toList u
    let (dev, u2) ← takeToFirst " hangup: ".toList u1
    let (typ, _) ← takeToFirst [')'] u2
    some (dev.asString, typ.asString)) s

/-- parse_log.py lines 321-328: `parse_received_hangup`. -/
def parse_received_hangup (line : String) : Option Event :=
  (tsThen receivedHangupTail line).map
    (fun p => Event.receivedHangup p.1 p.2.1 p.2.2)

/-- Tail of `CALL_END_PATTERN` (line 331):
`ringrtc::core::call.*terminate_call.*`. -/
def callEndTail (s : List Char) : Option Unit :=
  tryFromRight (fun u => do
    let u1 ← dropLit "ringrtc::core::call".toList u
    if "terminate_call".toList <:+: u1 then some () else none) s

/-- parse_log.py lines 336-343: `parse_call_end`. -/
def parse_call_end (line : String) : Option Event :=
  (tsThen callEndTail line).map (fun p => Event.callEnded p.1)

/-- The recognizer list of `parse_events` (parse_log.py line 348), in
source order. -/
def parsers : List (String → Option Event) :=
  [parse_outgoing_call, parse_incoming_call, parse_call_start, parse_call_state,
   parse_connection, parse_local_ice_candidate, parse_remote_ice_candidate,
   parse_ice_connected, parse_network_route_change, parse_send_rate_change,
   parse_audio_receive_stats, parse_video_receive_stats, parse_local_hangup,
   parse_received_hangup, parse_call_end]

/-- parse_log.py lines 346-351: `parse_events`.  For each line the loop
applies *every* recognizer and yields each non-`None` result — there is no
early exit after a match. -/
def parse_events (lines : List String) : List Event :=
  lines.flatMap (fun line => parsers.filterMap (fun parse => parse line))

/-- Constructor tag of an event — the index of the recognizer that can
produce it, in the `parsers` order. -/
def eventKind : Event → ℕ
  | .outgoingCall _ => 0
  | .incomingCall _ => 1
  | .callStart _ _ => 2
  | .callState _ _ => 3
  | .connection _ _ => 4
  | .localIceCandidate _ _ => 5
  | .remoteIceCandidate _ _ => 6
  | .iceConnected _ => 7
  | .networkRouteChange _ _ => 8
  | .sendRateChange _ _ => 9
  | .audioReceiveStats _ _ _ _ _ _ _ _ _ _ => 10
  | .videoReceiveStats _ _ _ _ _ _ _ _ _ _ _ => 11
  | .localHangup _ => 12
  | .receivedHangup _ _ _ => 13
  | .callEnded _ => 14

/-- An event is a `videoReceiveStats` whose `key_frames_decoded` equals
its `frames_decoded` (false for every other constructor). -/
def keyFramesEqFrames : Event → Bool
  | .videoReceiveStats _ _ _ _ _ _ fd kfd _ _ _ => kfd == fd
  | _ => false

/-- **C9.** Every event the video-receive-stats recognizer returns is a
`videoReceiveStats` whose `key_frames_decoded` equals its
`frames_decoded`: source line 290 converts *both* fields from
`frames_decoded_str`; the captured key-frames column is never used. -/
theorem parse_video_key_frames_eq (line : String) (e : Event)
    (h : parse_video_receive_stats line = some e) : keyFramesEqFrames e = true := by
  unfold parse_video_receive_stats at h
  cases hts : tsThen videoStatsTail line with
  | none => rw [hts] at h; exact absurd h (by simp)
  | some p =>
      obtain ⟨t, ssrcStr, fields, fhStr⟩ := p
      rw [hts] at h
      simp only [Option.pure_def, Option.bind_eq_bind, Option.bind_eq_some,
        Option.some.injEq] at h
      obtain ⟨ssrc, hssrc, pr, hpr, pl, hpl, prp, hprp, br, hbr, fd, hfd, kfd, hkfd,
        tdt, htdt, fw, hfw, fh, hfh, heq⟩ := h
      rw [hfd] at hkfd
      injection hkfd with hkfd
      subst hkfd
      subst heq
      simp [keyFramesEqFrames]

/-- Witness for C9: a concrete well-formed video stats line — its captured
key-frames column is `7`, yet the parsed event carries
`key_frames_decoded = frames_decoded = 30`. -/
theorem parse_video_key_frames_eq_witness :
    (parse_video_receive_stats
      "00:00:00.0 ringrtc_stats!,video,recv,123,10,2,1,5000,30,7,0.5,640,480").isSome
        = true ∧
    (parse_video_receive_stats
      "00:00:00.0 ringrtc_stats!,video,recv,123,10,2,1,5000,30,7,0.5,640,480").map
        keyFramesEqFrames = some true := by
  have hs : (parse_video_receive_stats
      "00:00:00.0 ringrtc_stats!,video,recv,123,10,2,1,5000,30,7,0.5,640,480").isSome
        = true := by decide
  obtain ⟨e, he⟩ := Option.isSome_iff_exists.mp hs
  refine ⟨hs, ?_⟩
  rw [he, Option.map_some', parse_video_key_frames_eq _ e he]

/-- **C7 counterexample.** `parse_events` tries every recognizer on each
line with no early exit: this single line carries both the
`API:create_outgoing_call` and the `API:received_offer` anchors, both
recognizers fire, and the line yields *two* extracted events. -/
theorem parse_events_two_events_one_line :
    (parse_outgoing_call
      "12:34:56.789 API:create_outgoing_call API:received_offer").isSome = true ∧
    (parse_incoming_call
      "12:34:56.789 API:create_outgoing_call API:received_offer").isSome = true ∧
    1 < (parse_events
      ["12:34:56.789 API:create_outgoing_call API:received_offer"]).length := by
  refine ⟨by decide, by decide, by decide⟩

/-- **C7 (amended).** In `_parse_calls` classification *is*
first-match-wins: the `elif` chain assigns each line exactly one action —
a line containing both the 1:1 start marker and a stats anchor is treated
as a start, and the freshly opened record's stats bucket stays empty.  In
`parse_events`, by contrast, every recognizer is applied to every line
with no early exit, yielding one event per matching recognizer in
recognizer order — so a line matching two recognizers yields two events
(kinds `0` and `1` here). -/
theorem classification_first_match_vs_all_matches :
    (∀ (st : ParseState) (line : String),
      containsSub "on_start_call" line = true →
      containsSub "ringrtc_stats!,connection," line = true →
      (extract_call_id line).isSome = true →
      ∃ rc, parseStep st line = some { raw_calls := emitOpen st, raw_call := some rc } ∧
        rc.connection = []) ∧
    (parse_events ["12:34:56.789 API:create_outgoing_call API:received_offer"]).map
      eventKind = [0, 1] := by
  constructor
  · intro st line h1 _h2 hid
    obtain ⟨cid, hcid⟩ := Option.isSome_iff_exists.mp hid
    unfold parseStep
    rw [if_pos h1, hcid]
    exact ⟨_, rfl, rfl⟩
  · decide

/-- Witness for C7's amended statement: a concrete line containing both
`on_start_call` and `ringrtc_stats!,connection,` is classified as a start
by `_parse_calls` — the connection bucket is not appended. -/
theorem classification_first_match_vs_all_matches_witness :
    ∃ rc, parseStep ⟨[], none⟩
        "2022-12-03 11:38:08.357 CST on_start_call 0xabc ringrtc_stats!,connection,x" =
        some { raw_calls := emitOpen ⟨[], none⟩, raw_call := some rc } ∧
      rc.connection = [] :=
  classification_first_match_vs_all_matches.1 ⟨[], none⟩ _ (by decide) (by decide)
    (by decide)

end RingRTC
